import Mathlib

/-!
Verification of the item-rendering core of the `list` package
(file `list/defaultitem.go`): the `DefaultDelegate` render logic,
its truncation arithmetic, display-state resolution and filter-match
highlighting.

The renderer itself (`DefaultDelegate.Render`, `Height`, `Spacing`) is
embedded directly from `list/defaultitem.go`.  The enclosing list widget
state (`Model`), the single-character `ellipsis` constant, the external
truncation primitive (`truncate.StringWithTail`) and the external styling
primitive (`lipgloss`) live outside that file; they are modelled from the
specification at their interface boundary, as noted on each definition.
Text is a list of runes; each rune occupies one display cell in this
model (grapheme-width measurement is owned by the external
text-measurement primitive and is out of scope per the spec).
-/

namespace Bubbles

/-- Modelled from the spec: the three-valued filter mode owned by the
enclosing list widget (`Unfiltered`, `Filtering`, `FilterApplied`). -/
inductive FilterState where
  | Unfiltered
  | Filtering
  | FilterApplied
deriving DecidableEq, Repr

/-- Modelled from the spec: a style descriptor for the external styling
primitive (lipgloss), opaque to this core.  Only the properties the
renderer reads or sets are carried: foreground colors, left border,
padding on the four sides, underline (the match-emphasis attribute) and
the inline flag. -/
structure Style where
  fgLight : String := ""
  fgDark : String := ""
  borderLeft : Bool := false
  borderFgLight : String := ""
  borderFgDark : String := ""
  padTop : Nat := 0
  padRight : Nat := 0
  padBottom : Nat := 0
  padLeft : Nat := 0
  underline : Bool := false
  inlined : Bool := false
deriving DecidableEq, Repr

def Style.GetPaddingLeft (s : Style) : Nat := s.padLeft

def Style.GetPaddingRight (s : Style) : Nat := s.padRight

/-- Modelled from the spec: lipgloss `Copy` returns the style value
unchanged (value semantics). -/
def Style.Copy (s : Style) : Style := s

/-- Modelled from the spec: lipgloss `Inline(v)` marks the style as
inline so that padding and borders are not re-applied per run. -/
def Style.Inline (s : Style) (v : Bool) : Style := { s with inlined := v }

/-- Modelled from the spec: lipgloss `Inherit` adopts properties from the
argument style.  The only use in the renderer inherits from the
match-emphasis style, which carries only the underline attribute. -/
def Style.Inherit (s p : Style) : Style :=
  { s with underline := s.underline || p.underline }

/-- Symbolic styled text: the string produced by the external styling
primitive, kept as a tree so that which style wrapped which text is
observable. -/
inductive RTxt where
  | raw : List Char → RTxt
  | styled : Style → RTxt → RTxt
  | cat : RTxt → RTxt → RTxt
deriving DecidableEq, Repr

/-- Modelled from the spec: lipgloss `Style.Render` applies a style
descriptor to a string and returns the styled string. -/
def Style.Render (s : Style) (t : RTxt) : RTxt := RTxt.styled s t

/-- The underlying text content of a styled string, in display cells. -/
def RTxt.text : RTxt → List Char
  | .raw cs => cs
  | .styled _ t => t.text
  | .cat a b => a.text ++ b.text

/-- Membership of a rune index in the matched-position set. -/
def memb (idxs : List Nat) (i : Nat) : Bool := idxs.contains i

/-- Split a string (starting at rune index `i`) into maximal runs of
runes with equal matched-membership, as lipgloss `StyleRunes` groups
consecutive runes before flushing each group. -/
def runSplit (idxs : List Nat) : List Char → Nat → List (Bool × List Char)
  | [], _ => []
  | c :: cs, i =>
      match runSplit idxs cs (i + 1) with
      | [] => [(memb idxs i, [c])]
      | (b, r) :: rest =>
          if memb idxs i = b then (b, c :: r) :: rest
          else (memb idxs i, [c]) :: (b, r) :: rest

/-- Render each run with the matched or unmatched style and concatenate. -/
def styleRuns (matched unmatched : Style) : List (Bool × List Char) → RTxt
  | [] => .raw []
  | p :: rest =>
      .cat (.styled (cond p.1 matched unmatched) (.raw p.2))
        (styleRuns matched unmatched rest)

/-- Modelled from the spec: lipgloss `StyleRunes` partitions the string
into runs alternating matched and unmatched by the given index set,
styles matched runs with `matched`, unmatched runs with `unmatched`, and
concatenates the results. -/
def StyleRunes (cs : List Char) (idxs : List Nat) (matched unmatched : Style) : RTxt :=
  styleRuns matched unmatched (runSplit idxs cs 0)

/-- Style definitions for a default list item (from `DefaultItemStyles`). -/
structure DefaultItemStyles where
  NormalTitle : Style
  NormalDesc : Style
  SelectedTitle : Style
  SelectedDesc : Style
  DimmedTitle : Style
  DimmedDesc : Style
  FilterMatch : Style
deriving DecidableEq, Repr

/-- Default style definitions, from `NewDefaultItemStyles`:
normal title has padding (0, 0, 0, 2); selected title has a left border
and padding (0, 0, 0, 1); dimmed mirrors normal; the filter-match style
is underline only. -/
def NewDefaultItemStyles : DefaultItemStyles :=
  let normalTitle : Style :=
    { fgLight := "#1a1a1a", fgDark := "#dddddd",
      padTop := 0, padRight := 0, padBottom := 0, padLeft := 2 }
  let selectedTitle : Style :=
    { borderLeft := true,
      borderFgLight := "#F793FF", borderFgDark := "#AD58B4",
      fgLight := "#EE6FF8", fgDark := "#EE6FF8",
      padTop := 0, padRight := 0, padBottom := 0, padLeft := 1 }
  let dimmedTitle : Style :=
    { fgLight := "#A49FA5", fgDark := "#777777",
      padTop := 0, padRight := 0, padBottom := 0, padLeft := 2 }
  { NormalTitle := normalTitle
    NormalDesc := { normalTitle with fgLight := "#A49FA5", fgDark := "#777777" }
    SelectedTitle := selectedTitle
    SelectedDesc := { selectedTitle with fgLight := "#F793FF", fgDark := "#AD58B4" }
    DimmedTitle := dimmedTitle
    DimmedDesc := { dimmedTitle with fgLight := "#C2B8C2", fgDark := "#4D4D4D" }
    FilterMatch := { underline := true } }

/-- A list item.  `defaultItem` implements the `DefaultItem` capability
(title, description and the base filter value); `bare` is an item that
implements only the base `Item` interface, so the type probe
`item.(DefaultItem)` fails on it. -/
inductive Item where
  | defaultItem (title desc filterVal : List Char) : Item
  | bare (filterVal : List Char) : Item
deriving DecidableEq, Repr

/-- Modelled from the spec: the enclosing list widget observable state
(the `Model` of the list package is not part of the rendered core file).
Per the spec it supplies the current selection index, the filter mode,
the filter query text, the per-index matched-position list, the viewport
width, and the filtered-item count. -/
structure Model where
  width : Int
  index : Int
  filterState : FilterState
  filterValue : List Char
  filteredItemsLen : Nat
  matchesForItem : Int → List Nat

/-- Modelled from the spec: accessor for the current selection index. -/
def Model.Index (m : Model) : Int := m.index

/-- Modelled from the spec: accessor for the filter mode. -/
def Model.FilterState (m : Model) : FilterState := m.filterState

/-- Modelled from the spec: accessor for the filter query text. -/
def Model.FilterValue (m : Model) : List Char := m.filterValue

/-- Modelled from the spec: matched rune positions for the row at the
given index, supplied by the filter engine. -/
def Model.MatchesForItem (m : Model) (index : Int) : List Nat :=
  m.matchesForItem index

/-- The standard list delegate (from `DefaultDelegate`).  The update and
help hooks are orthogonal to rendering (per the spec they must not be
invoked from inside render) and are not modelled. -/
structure DefaultDelegate where
  ShowDescription : Bool
  Styles : DefaultItemStyles
  RenderFunc : Option (Model → Int → Item → List RTxt)
  spacing : Int

/-- From `NewDefaultDelegate`: description shown, default styles,
spacing 1. -/
def NewDefaultDelegate : DefaultDelegate :=
  { ShowDescription := true
    Styles := NewDefaultItemStyles
    RenderFunc := none
    spacing := 1 }

/-- From `DefaultDelegate.Height`: 2 with a description line, else 1. -/
def DefaultDelegate.Height (d : DefaultDelegate) : Int :=
  if d.ShowDescription then 2 else 1

/-- From `DefaultDelegate.SetSpacing`. -/
def DefaultDelegate.SetSpacing (d : DefaultDelegate) (i : Int) : DefaultDelegate :=
  { d with spacing := i }

/-- From `DefaultDelegate.Spacing`. -/
def DefaultDelegate.Spacing (d : DefaultDelegate) : Int := d.spacing

/-- Modelled from the spec: the single-character ellipsis indicator
appended on truncation (the `ellipsis` constant of the list package is
defined outside the rendered core file). -/
def ellipsis : Char := '…'

/-- Go conversion `uint(x)` of a signed 64-bit value: reduction modulo
2 to the 64, so a negative argument wraps around to a huge value. -/
def goUint (x : Int) : Nat := (x % (2 : Int) ^ 64).toNat

/-- Modelled from the spec: the external truncation primitive
`truncate.StringWithTail`, specified at its interface boundary: the
string is returned unchanged when it fits within the target width,
otherwise it is truncated so that, together with the appended
single-cell tail indicator, it occupies the target width.  Each rune is
one display cell in this model. -/
def truncateStringWithTail (s : List Char) (w : Nat) (tail : Char) : List Char :=
  if s.length ≤ w then s else s.take (w - 1) ++ [tail]

/-- The usable text width computed by the renderer: the viewport width
minus the normal-title style left and right padding, converted to the
unsigned type expected by the truncation primitive (`uint(m.width -
s.NormalTitle.GetPaddingLeft() - s.NormalTitle.GetPaddingRight())`). -/
def DefaultDelegate.textwidth (d : DefaultDelegate) (m : Model) : Nat :=
  goUint (m.width - (d.Styles.NormalTitle.GetPaddingLeft : Int)
    - (d.Styles.NormalTitle.GetPaddingRight : Int))

/-- The width guard of the renderer: when `m.width > 0`, truncate to the
usable text width with the ellipsis tail; otherwise pass through. -/
def DefaultDelegate.fit (d : DefaultDelegate) (m : Model) (s : List Char) : List Char :=
  if 0 < m.width then truncateStringWithTail s (d.textwidth m) ellipsis else s

/-- From `DefaultDelegate.Render` (lines 133 to 199 of
`list/defaultitem.go`): dispatch to the override when set; probe the
item for the `DefaultItem` capability and emit nothing when it is
absent; truncate title and description to the usable width when the
viewport width is positive; resolve dimmed, selected or normal state;
when filtering is active, highlight matched title runes with the
match-emphasis style layered over the inline base style; emit the title
line and, when `ShowDescription` is set, the description line. -/
def DefaultDelegate.Render (d : DefaultDelegate) (m : Model) (index : Int)
    (item : Item) : List RTxt :=
  match d.RenderFunc with
  | some f => f m index item
  | none =>
    match item with
    | .bare _ => []
    | .defaultItem title0 desc0 _ =>
      let s := d.Styles
      let title := d.fit m title0
      let desc := d.fit m desc0
      let matchedRunes : List Nat :=
        if (m.FilterState = FilterState.Filtering ∨
            m.FilterState = FilterState.FilterApplied) ∧
            index < (m.filteredItemsLen : Int) then
          m.MatchesForItem index
        else []
      let pair : RTxt × RTxt :=
        if m.FilterState = FilterState.Filtering ∧ m.FilterValue = [] then
          (s.DimmedTitle.Render (RTxt.raw title),
           s.DimmedDesc.Render (RTxt.raw desc))
        else if index = m.Index ∧ ¬ m.FilterState = FilterState.Filtering then
          (s.SelectedTitle.Render
            (if m.FilterState = FilterState.Filtering ∨
                m.FilterState = FilterState.FilterApplied then
               StyleRunes title matchedRunes
                 (((s.SelectedTitle.Inline true).Copy).Inherit s.FilterMatch)
                 (s.SelectedTitle.Inline true)
             else RTxt.raw title),
           s.SelectedDesc.Render (RTxt.raw desc))
        else
          (s.NormalTitle.Render
            (if m.FilterState = FilterState.Filtering ∨
                m.FilterState = FilterState.FilterApplied then
               StyleRunes title matchedRunes
                 (((s.NormalTitle.Inline true).Copy).Inherit s.FilterMatch)
                 (s.NormalTitle.Inline true)
             else RTxt.raw title),
           s.NormalDesc.Render (RTxt.raw desc))
      if d.ShowDescription then [pair.1, pair.2] else [pair.1]

/-- The title line of a rendered row. -/
def headLine (out : List RTxt) : RTxt := out.headD (RTxt.raw [])

/-- The text content of the title line. -/
def headText (out : List RTxt) : List Char := (headLine out).text

/-- The description line of a rendered row (when present). -/
def secondLine (out : List RTxt) : RTxt := (out.drop 1).headD (RTxt.raw [])

/-- The text content of the description line. -/
def secondText (out : List RTxt) : List Char := (secondLine out).text

/-- The outermost style applied to a rendered line, when one is. -/
def lineStyle : RTxt → Option Style
  | .styled s _ => some s
  | _ => none

/-! ### Helper lemmas -/

theorem styleRuns_text (matched unmatched : Style) (l : List (Bool × List Char)) :
    (styleRuns matched unmatched l).text
      = l.foldr (fun p acc => p.2 ++ acc) [] := by
  induction l with
  | nil => rfl
  | cons p rest ih => simp [styleRuns, RTxt.text, ih]

theorem runSplit_join (idxs : List Nat) (cs : List Char) (i : Nat) :
    (runSplit idxs cs i).foldr (fun p acc => p.2 ++ acc) [] = cs := by
  induction cs generalizing i with
  | nil => rfl
  | cons c cs ih =>
    have h := ih (i + 1)
    simp only [runSplit]
    cases hr : runSplit idxs cs (i + 1) with
    | nil =>
      rw [hr] at h
      simp only [List.foldr_nil] at h
      simp [← h]
    | cons p rest =>
      obtain ⟨b, r⟩ := p
      rw [hr] at h
      by_cases hb : memb idxs i = b
      · simp only [hb, if_true, List.foldr_cons] at h ⊢
        simp [h]
      · simp only [hb, if_false, List.foldr_cons] at h ⊢
        simp [h]

theorem StyleRunes_text (cs : List Char) (idxs : List Nat) (a b : Style) :
    (StyleRunes cs idxs a b).text = cs := by
  rw [StyleRunes, styleRuns_text, runSplit_join]

theorem headText_Render (d : DefaultDelegate) (m : Model) (index : Int)
    (t ds fv : List Char) (hrf : d.RenderFunc = none) :
    headText (d.Render m index (Item.defaultItem t ds fv)) = d.fit m t := by
  simp only [DefaultDelegate.Render, hrf]
  split_ifs <;>
    simp [headText, headLine, RTxt.text, Style.Render, StyleRunes_text]

theorem secondLine_Render (d : DefaultDelegate) (m : Model) (index : Int)
    (t ds fv : List Char) (hrf : d.RenderFunc = none)
    (hsd : d.ShowDescription = true) :
    ∃ st, (d.Render m index (Item.defaultItem t ds fv)).drop 1
        = [RTxt.styled st (RTxt.raw (d.fit m ds))] := by
  simp only [DefaultDelegate.Render, hrf, hsd]
  split_ifs <;> exact ⟨_, rfl⟩

theorem goUint_of_nonneg (x : Int) (h0 : 0 ≤ x) (h1 : x < 2 ^ 64) :
    goUint x = x.toNat := by
  unfold goUint
  have hp : (2 : Int) ^ 64 = 18446744073709551616 := by norm_num
  rw [hp]
  rw [hp] at h1
  omega

theorem goUint_of_neg (x : Int) (h0 : -(2 ^ 64) ≤ x) (h1 : x < 0) :
    goUint x = (x + 2 ^ 64).toNat := by
  unfold goUint
  have hp : (2 : Int) ^ 64 = 18446744073709551616 := by norm_num
  rw [hp] at h0 ⊢
  omega

/-! ### Concrete inputs used by the witnesses -/

/-- Widget state with width 0, no filtering, selection at 0. -/
def mUnf : Model :=
  { width := 0, index := 0, filterState := FilterState.Unfiltered,
    filterValue := [], filteredItemsLen := 0, matchesForItem := fun _ => [] }

/-- Same observable fields as `mUnf`, with a syntactically different
match-position function. -/
def mUnf2 : Model := { mUnf with matchesForItem := fun _ => List.append [] [] }

/-- Widget state in Filtering mode with the non-empty query "a". -/
def mFil : Model :=
  { width := 0, index := 0, filterState := FilterState.Filtering,
    filterValue := ['a'], filteredItemsLen := 1, matchesForItem := fun _ => [0] }

/-- Widget state in Filtering mode with an empty query, selection at 0. -/
def mFilEmpty : Model :=
  { width := 0, index := 0, filterState := FilterState.Filtering,
    filterValue := [], filteredItemsLen := 0, matchesForItem := fun _ => [] }

/-- Widget state with a committed filter, selection at 2. -/
def mApplied : Model :=
  { width := 2, index := 2, filterState := FilterState.FilterApplied,
    filterValue := ['a'], filteredItemsLen := 3, matchesForItem := fun _ => [0] }

/-- Widget state with width 1 (below the default padding sum of 2). -/
def mW1 : Model :=
  { width := 1, index := 0, filterState := FilterState.Unfiltered,
    filterValue := [], filteredItemsLen := 0, matchesForItem := fun _ => [] }

/-- Widget state with width 2 (equal to the default padding sum). -/
def mW2 : Model :=
  { width := 2, index := 0, filterState := FilterState.Unfiltered,
    filterValue := [], filteredItemsLen := 0, matchesForItem := fun _ => [] }

/-- Widget state with width 5. -/
def mW5 : Model :=
  { width := 5, index := 0, filterState := FilterState.Unfiltered,
    filterValue := [], filteredItemsLen := 0, matchesForItem := fun _ => [] }

/-- Widget state with width 10. -/
def mW10 : Model :=
  { width := 10, index := 0, filterState := FilterState.Unfiltered,
    filterValue := [], filteredItemsLen := 0, matchesForItem := fun _ => [] }

/-- A concrete render override used by the C10 witness. -/
def overrideF : Model → Int → Item → List RTxt := fun _ _ _ => [RTxt.raw ['x']]

/-! ### Claims -/

/-- Claim C5: an item that does not expose the title and description
capability (does not implement `DefaultItem`) renders to the empty
output: nothing is written, and no error is raised (the render function
is total), so the caller can keep rendering subsequent rows. -/
theorem c5_unsupported_item_empty (d : DefaultDelegate) (m : Model)
    (index : Int) (fv : List Char) (hrf : d.RenderFunc = none) :
    d.Render m index (Item.bare fv) = [] := by
  simp [DefaultDelegate.Render, hrf]

theorem c5_witness :
    NewDefaultDelegate.RenderFunc = none ∧
    NewDefaultDelegate.Render mUnf 0 (Item.bare []) = [] :=
  ⟨rfl, c5_unsupported_item_empty NewDefaultDelegate mUnf 0 [] rfl⟩

/-- Claim C10: when the render-override hook `RenderFunc` is configured,
`Render` invokes it and performs none of the default algorithm: the
output equals exactly what the override produces. -/
theorem c10_override (d : DefaultDelegate) (m : Model) (index : Int)
    (item : Item) (f : Model → Int → Item → List RTxt)
    (hrf : d.RenderFunc = some f) :
    d.Render m index item = f m index item := by
  simp [DefaultDelegate.Render, hrf]

theorem c10_witness :
    ({ NewDefaultDelegate with RenderFunc := some overrideF } :
        DefaultDelegate).RenderFunc = some overrideF ∧
    ({ NewDefaultDelegate with RenderFunc := some overrideF } :
        DefaultDelegate).Render mUnf 0 (Item.bare [])
      = overrideF mUnf 0 (Item.bare []) :=
  ⟨rfl, c10_override _ mUnf 0 (Item.bare []) overrideF rfl⟩

/-- Claim C8: `Render` is deterministic: two calls whose inputs agree on
every observable field of the widget state, including the per-index
match positions, produce identical output. -/
theorem c8_deterministic (d : DefaultDelegate) (index : Int) (item : Item)
    (m1 m2 : Model)
    (hw : m1.width = m2.width) (hi : m1.index = m2.index)
    (hf : m1.filterState = m2.filterState)
    (hv : m1.filterValue = m2.filterValue)
    (hl : m1.filteredItemsLen = m2.filteredItemsLen)
    (hm : ∀ j, m1.matchesForItem j = m2.matchesForItem j) :
    d.Render m1 index item = d.Render m2 index item := by
  have hfn : m1.matchesForItem = m2.matchesForItem := funext hm
  have : m1 = m2 := by
    cases m1
    cases m2
    simp_all
  rw [this]

theorem c8_witness :
    (∀ j, mUnf.matchesForItem j = mUnf2.matchesForItem j) ∧
    NewDefaultDelegate.Render mUnf 0 (Item.defaultItem ['a'] ['b'] [])
      = NewDefaultDelegate.Render mUnf2 0 (Item.defaultItem ['a'] ['b'] []) :=
  ⟨fun _ => rfl,
   c8_deterministic NewDefaultDelegate 0 (Item.defaultItem ['a'] ['b'] [])
     mUnf mUnf2 rfl rfl rfl rfl rfl (fun _ => rfl)⟩

/-- Claim C9: for every configuration, `Height` returns 2 when
`ShowDescription` is true and 1 otherwise, and `Spacing` returns the
configured inter-row gap (the value installed by `SetSpacing`). -/
theorem c9_height_spacing (d : DefaultDelegate) (i : Int) :
    (d.ShowDescription = true → d.Height = 2) ∧
    (d.ShowDescription = false → d.Height = 1) ∧
    (d.SetSpacing i).Spacing = i := by
  refine ⟨?_, ?_, rfl⟩ <;> intro h <;>
    simp [DefaultDelegate.Height, h]

theorem c9_witness :
    NewDefaultDelegate.Height = 2 ∧
    ({ NewDefaultDelegate with ShowDescription := false } :
        DefaultDelegate).Height = 1 ∧
    (NewDefaultDelegate.SetSpacing 3).Spacing = 3 :=
  ⟨(c9_height_spacing NewDefaultDelegate 3).1 rfl,
   (c9_height_spacing { NewDefaultDelegate with ShowDescription := false } 3).2.1 rfl,
   (c9_height_spacing NewDefaultDelegate 3).2.2⟩

/-- Claim C1: in Filtering mode with a non-empty query, the selected row
suppresses the selection-highlight style: title and description are
rendered with the normal (not selected) styles, while match emphasis is
still applied to the matched title positions via `StyleRunes` with the
filter-match style layered over the inline normal-title style. -/
theorem c1_filtering_suppresses_selection (d : DefaultDelegate) (m : Model)
    (index : Int) (t ds fv : List Char)
    (hrf : d.RenderFunc = none) (hsd : d.ShowDescription = true)
    (hfs : m.filterState = FilterState.Filtering)
    (hfv : m.filterValue ≠ []) (_hsel : index = m.index) :
    d.Render m index (Item.defaultItem t ds fv) =
      [ RTxt.styled d.Styles.NormalTitle
          (StyleRunes (d.fit m t)
            (if index < (m.filteredItemsLen : Int)
             then m.matchesForItem index else [])
            (((d.Styles.NormalTitle.Inline true).Copy).Inherit
              d.Styles.FilterMatch)
            (d.Styles.NormalTitle.Inline true)),
        RTxt.styled d.Styles.NormalDesc (RTxt.raw (d.fit m ds)) ] := by
  simp [DefaultDelegate.Render, hrf, hsd, Model.FilterState, Model.FilterValue,
    Model.Index, Model.MatchesForItem, hfs, hfv, Style.Render]

theorem c1_witness :
    mFil.filterState = FilterState.Filtering ∧
    mFil.filterValue ≠ [] ∧
    (0 : Int) = mFil.index ∧
    NewDefaultDelegate.Render mFil 0 (Item.defaultItem ['a', 'b'] ['c'] []) =
      [ RTxt.styled NewDefaultDelegate.Styles.NormalTitle
          (StyleRunes (NewDefaultDelegate.fit mFil ['a', 'b'])
            (if (0 : Int) < (mFil.filteredItemsLen : Int)
             then mFil.matchesForItem 0 else [])
            (((NewDefaultDelegate.Styles.NormalTitle.Inline true).Copy).Inherit
              NewDefaultDelegate.Styles.FilterMatch)
            (NewDefaultDelegate.Styles.NormalTitle.Inline true)),
        RTxt.styled NewDefaultDelegate.Styles.NormalDesc
          (RTxt.raw (NewDefaultDelegate.fit mFil ['c'])) ] :=
  ⟨rfl, by decide, rfl,
   c1_filtering_suppresses_selection NewDefaultDelegate mFil 0
     ['a', 'b'] ['c'] [] rfl rfl rfl (by decide) rfl⟩

/-- Claim C4: display-state precedence.  First part: in Filtering mode
with an empty query the dimmed title and description styles are applied
regardless of the selection index.  Second part: with a non-empty query,
row index equal to the selection index and filter mode not Filtering,
the selected title and description styles are applied. -/
theorem c4_state_precedence :
    (∀ (d : DefaultDelegate) (m : Model) (index : Int) (t ds fv : List Char),
        d.RenderFunc = none → d.ShowDescription = true →
        m.filterState = FilterState.Filtering → m.filterValue = [] →
        d.Render m index (Item.defaultItem t ds fv) =
          [ RTxt.styled d.Styles.DimmedTitle (RTxt.raw (d.fit m t)),
            RTxt.styled d.Styles.DimmedDesc (RTxt.raw (d.fit m ds)) ]) ∧
    (∀ (d : DefaultDelegate) (m : Model) (index : Int) (t ds fv : List Char),
        d.RenderFunc = none → d.ShowDescription = true →
        m.filterValue ≠ [] → index = m.index →
        m.filterState ≠ FilterState.Filtering →
        lineStyle (headLine (d.Render m index (Item.defaultItem t ds fv)))
            = some d.Styles.SelectedTitle ∧
        lineStyle (secondLine (d.Render m index (Item.defaultItem t ds fv)))
            = some d.Styles.SelectedDesc) := by
  constructor
  · intro d m index t ds fv hrf hsd hfs hfv
    simp [DefaultDelegate.Render, hrf, hsd, Model.FilterState, Model.FilterValue,
      hfs, hfv, Style.Render]
  · intro d m index t ds fv hrf hsd hfv hsel hfs
    simp [DefaultDelegate.Render, hrf, hsd, Model.FilterState, Model.FilterValue,
      Model.Index, hfs, hfv, hsel, Style.Render, lineStyle, headLine, secondLine]

theorem c4_witness :
    (mFilEmpty.filterState = FilterState.Filtering ∧
     mFilEmpty.filterValue = [] ∧
     NewDefaultDelegate.Render mFilEmpty 5 (Item.defaultItem ['a'] ['b'] []) =
       [ RTxt.styled NewDefaultDelegate.Styles.DimmedTitle
           (RTxt.raw (NewDefaultDelegate.fit mFilEmpty ['a'])),
         RTxt.styled NewDefaultDelegate.Styles.DimmedDesc
           (RTxt.raw (NewDefaultDelegate.fit mFilEmpty ['b'])) ]) ∧
    (mApplied.filterValue ≠ [] ∧
     (2 : Int) = mApplied.index ∧
     mApplied.filterState ≠ FilterState.Filtering ∧
     lineStyle (headLine (NewDefaultDelegate.Render mApplied 2
         (Item.defaultItem ['a'] ['b'] [])))
         = some NewDefaultDelegate.Styles.SelectedTitle ∧
     lineStyle (secondLine (NewDefaultDelegate.Render mApplied 2
         (Item.defaultItem ['a'] ['b'] [])))
         = some NewDefaultDelegate.Styles.SelectedDesc) :=
  ⟨⟨rfl, rfl,
    c4_state_precedence.1 NewDefaultDelegate mFilEmpty 5 ['a'] ['b'] []
      rfl rfl rfl rfl⟩,
   ⟨by decide, rfl, by decide,
    c4_state_precedence.2 NewDefaultDelegate mApplied 2 ['a'] ['b'] []
      rfl rfl (by decide) rfl (by decide)⟩⟩

/-- Claim C6: truncation is a no-op when the width is 0 (unbounded) or
when title and description already fit within the usable width: the
rendered text equals the input text and no ellipsis is appended. -/
theorem c6_truncation_noop :
    (∀ (d : DefaultDelegate) (m : Model) (index : Int) (t ds fv : List Char),
        d.RenderFunc = none → d.ShowDescription = true → m.width = 0 →
        headText (d.Render m index (Item.defaultItem t ds fv)) = t ∧
        secondText (d.Render m index (Item.defaultItem t ds fv)) = ds) ∧
    (∀ (d : DefaultDelegate) (m : Model) (index : Int) (t ds fv : List Char),
        d.RenderFunc = none → d.ShowDescription = true → 0 < m.width →
        t.length ≤ d.textwidth m → ds.length ≤ d.textwidth m →
        headText (d.Render m index (Item.defaultItem t ds fv)) = t ∧
        secondText (d.Render m index (Item.defaultItem t ds fv)) = ds) := by
  constructor
  · intro d m index t ds fv hrf hsd hw
    have h1 := headText_Render d m index t ds fv hrf
    obtain ⟨st, h2⟩ := secondLine_Render d m index t ds fv hrf hsd
    constructor
    · rw [h1]
      simp [DefaultDelegate.fit, hw]
    · simp [secondText, secondLine, h2, RTxt.text, DefaultDelegate.fit, hw]
  · intro d m index t ds fv hrf hsd hw ht hds
    have h1 := headText_Render d m index t ds fv hrf
    obtain ⟨st, h2⟩ := secondLine_Render d m index t ds fv hrf hsd
    constructor
    · rw [h1]
      simp [DefaultDelegate.fit, hw, truncateStringWithTail, ht]
    · simp [secondText, secondLine, h2, RTxt.text, DefaultDelegate.fit, hw,
        truncateStringWithTail, hds]

theorem c6_witness :
    (mUnf.width = 0 ∧
     headText (NewDefaultDelegate.Render mUnf 0
         (Item.defaultItem ['a', 'b'] ['c'] [])) = ['a', 'b'] ∧
     secondText (NewDefaultDelegate.Render mUnf 0
         (Item.defaultItem ['a', 'b'] ['c'] [])) = ['c']) ∧
    (0 < mW10.width ∧
     (['a', 'b'] : List Char).length ≤ NewDefaultDelegate.textwidth mW10 ∧
     headText (NewDefaultDelegate.Render mW10 0
         (Item.defaultItem ['a', 'b'] ['c'] [])) = ['a', 'b'] ∧
     secondText (NewDefaultDelegate.Render mW10 0
         (Item.defaultItem ['a', 'b'] ['c'] [])) = ['c']) := by
  refine ⟨⟨rfl, ?_⟩, ⟨by decide, by decide, ?_⟩⟩
  · exact c6_truncation_noop.1 NewDefaultDelegate mUnf 0 ['a', 'b'] ['c'] []
      rfl rfl rfl
  · exact c6_truncation_noop.2 NewDefaultDelegate mW10 0 ['a', 'b'] ['c'] []
      rfl rfl (by decide) (by decide) (by decide)

/-- Claim C3: for every positive width smaller than the normal-title
padding sum, the signed subtraction width minus padding is negative and
its conversion to the unsigned truncation budget wraps around to a huge
value (at least 2 to the 63), so neither title nor description is
truncated and no ellipsis is appended: both pass through unchanged. -/
theorem c3_wraparound (d : DefaultDelegate) (m : Model) (index : Int)
    (t ds fv : List Char)
    (hrf : d.RenderFunc = none) (hsd : d.ShowDescription = true)
    (h0 : 0 < m.width)
    (hlt : m.width < (d.Styles.NormalTitle.GetPaddingLeft : Int)
        + (d.Styles.NormalTitle.GetPaddingRight : Int))
    (hpb : (d.Styles.NormalTitle.GetPaddingLeft : Int)
        + (d.Styles.NormalTitle.GetPaddingRight : Int) ≤ 2 ^ 63)
    (ht : t.length < 2 ^ 63) (hds : ds.length < 2 ^ 63) :
    2 ^ 63 ≤ d.textwidth m ∧
    headText (d.Render m index (Item.defaultItem t ds fv)) = t ∧
    secondText (d.Render m index (Item.defaultItem t ds fv)) = ds := by
  have hbig : 2 ^ 63 ≤ d.textwidth m := by
    unfold DefaultDelegate.textwidth goUint
    have hp : (2 : Int) ^ 64 = 18446744073709551616 := by norm_num
    have hq : (2 : Int) ^ 63 = 9223372036854775808 := by norm_num
    have hr : (2 : Nat) ^ 63 = 9223372036854775808 := by norm_num
    rw [hp, hr]
    rw [hq] at hpb
    omega
  have hfit_t : d.fit m t = t := by
    have : t.length ≤ d.textwidth m := le_trans (le_of_lt ht) hbig
    simp [DefaultDelegate.fit, h0, truncateStringWithTail, this]
  have hfit_ds : d.fit m ds = ds := by
    have : ds.length ≤ d.textwidth m := le_trans (le_of_lt hds) hbig
    simp [DefaultDelegate.fit, h0, truncateStringWithTail, this]
  have h1 := headText_Render d m index t ds fv hrf
  obtain ⟨st, h2⟩ := secondLine_Render d m index t ds fv hrf hsd
  refine ⟨hbig, ?_, ?_⟩
  · rw [h1, hfit_t]
  · simp [secondText, secondLine, h2, RTxt.text, hfit_ds]

theorem c3_witness :
    0 < mW1.width ∧
    mW1.width < (NewDefaultDelegate.Styles.NormalTitle.GetPaddingLeft : Int)
        + (NewDefaultDelegate.Styles.NormalTitle.GetPaddingRight : Int) ∧
    2 ^ 63 ≤ NewDefaultDelegate.textwidth mW1 ∧
    headText (NewDefaultDelegate.Render mW1 0
        (Item.defaultItem ['a', 'b', 'c'] ['d', 'e'] [])) = ['a', 'b', 'c'] ∧
    secondText (NewDefaultDelegate.Render mW1 0
        (Item.defaultItem ['a', 'b', 'c'] ['d', 'e'] [])) = ['d', 'e'] := by
  refine ⟨by decide, by decide, ?_⟩
  have h := c3_wraparound NewDefaultDelegate mW1 0 ['a', 'b', 'c'] ['d', 'e'] []
    rfl rfl (by decide) (by decide) (by decide) (by norm_num) (by norm_num)
  exact ⟨h.1, h.2.1, h.2.2⟩

/-- Claim C2 counterexample: with the default styles (normal-title
padding sum 2), width 2 (which is positive) and the three-cell title
"abc" (which exceeds the width), the rendered title text is the single
ellipsis cell: its display length is 1, not width minus padding (0). -/
theorem c2_counterexample :
    0 < mW2.width ∧
    mW2.width.toNat < (['a', 'b', 'c'] : List Char).length ∧
    headText (NewDefaultDelegate.Render mW2 0
        (Item.defaultItem ['a', 'b', 'c'] [] [])) = [ellipsis] ∧
    (headText (NewDefaultDelegate.Render mW2 0
        (Item.defaultItem ['a', 'b', 'c'] [] []))).length
      ≠ mW2.width.toNat - (NewDefaultDelegate.Styles.NormalTitle.GetPaddingLeft
          + NewDefaultDelegate.Styles.NormalTitle.GetPaddingRight) := by
  refine ⟨by decide, by decide, ?_, ?_⟩ <;> decide

/-- Claim C2 (amended): for every title that exceeds a width strictly
greater than the normal-title padding sum, the rendered title text is a
prefix of the title followed by exactly one appended ellipsis indicator,
and its display length equals width minus the padding sum.  (For
positive widths at most the padding sum the unsigned budget underflows
and no truncation happens at all; see C3.) -/
theorem c2_amended (d : DefaultDelegate) (m : Model) (index : Int)
    (t ds fv : List Char)
    (hrf : d.RenderFunc = none)
    (hgt : (d.Styles.NormalTitle.GetPaddingLeft : Int)
        + (d.Styles.NormalTitle.GetPaddingRight : Int) < m.width)
    (hub : m.width ≤ 2 ^ 62)
    (hexceeds : (m.width : Int) < t.length) :
    headText (d.Render m index (Item.defaultItem t ds fv))
        = t.take (d.textwidth m - 1) ++ [ellipsis] ∧
    (headText (d.Render m index (Item.defaultItem t ds fv))).length
        = m.width.toNat - (d.Styles.NormalTitle.GetPaddingLeft
            + d.Styles.NormalTitle.GetPaddingRight) := by
  have h0 : 0 < m.width := by omega
  have htw : d.textwidth m = m.width.toNat
      - (d.Styles.NormalTitle.GetPaddingLeft
          + d.Styles.NormalTitle.GetPaddingRight) := by
    unfold DefaultDelegate.textwidth goUint
    have hp : (2 : Int) ^ 64 = 18446744073709551616 := by norm_num
    have hq : (2 : Int) ^ 62 = 4611686018427387904 := by norm_num
    rw [hp]
    rw [hq] at hub
    omega
  have hlen : m.width.toNat < t.length := by omega
  have hnot : ¬ (t.length ≤ d.textwidth m) := by
    rw [htw]
    omega
  have hfit : d.fit m t = t.take (d.textwidth m - 1) ++ [ellipsis] := by
    simp only [DefaultDelegate.fit, truncateStringWithTail]
    rw [if_pos h0, if_neg hnot]
  have h1 := headText_Render d m index t ds fv hrf
  refine ⟨by rw [h1, hfit], ?_⟩
  rw [h1, hfit]
  simp only [List.length_append, List.length_take, List.length_cons,
    List.length_nil]
  rw [htw] at *
  omega

theorem c2_witness :
    (NewDefaultDelegate.Styles.NormalTitle.GetPaddingLeft : Int)
        + (NewDefaultDelegate.Styles.NormalTitle.GetPaddingRight : Int)
        < mW5.width ∧
    (mW5.width : Int) < (['a', 'b', 'c', 'd', 'e', 'f'] : List Char).length ∧
    headText (NewDefaultDelegate.Render mW5 0
        (Item.defaultItem ['a', 'b', 'c', 'd', 'e', 'f'] [] []))
      = (['a', 'b', 'c', 'd', 'e', 'f'] : List Char).take
          (NewDefaultDelegate.textwidth mW5 - 1) ++ [ellipsis] ∧
    (headText (NewDefaultDelegate.Render mW5 0
        (Item.defaultItem ['a', 'b', 'c', 'd', 'e', 'f'] [] []))).length
      = mW5.width.toNat - (NewDefaultDelegate.Styles.NormalTitle.GetPaddingLeft
          + NewDefaultDelegate.Styles.NormalTitle.GetPaddingRight) := by
  have h := c2_amended NewDefaultDelegate mW5 0 ['a', 'b', 'c', 'd', 'e', 'f']
    [] [] rfl (by decide) (by decide) (by decide)
  exact ⟨by decide, by decide, h.1, h.2⟩

/-- Claim C7: match positions affect only the title: the output beyond
the title line is identical across two render calls that differ only in
the match-position function, and the description line is always the raw
(never match-emphasized) truncated description under a single style. -/
theorem c7_desc_independent_of_matches :
    (∀ (d : DefaultDelegate) (m : Model) (f : Int → List Nat) (index : Int)
        (item : Item),
        d.RenderFunc = none →
        (d.Render { m with matchesForItem := f } index item).drop 1
          = (d.Render m index item).drop 1) ∧
    (∀ (d : DefaultDelegate) (m : Model) (index : Int) (t ds fv : List Char),
        d.RenderFunc = none → d.ShowDescription = true →
        ∃ st, (d.Render m index (Item.defaultItem t ds fv)).drop 1
            = [RTxt.styled st (RTxt.raw (d.fit m ds))]) := by
  constructor
  · intro d m f index item hrf
    cases item with
    | bare fv => simp [DefaultDelegate.Render, hrf]
    | defaultItem t ds fv =>
      simp only [DefaultDelegate.Render, hrf, Model.FilterState,
        Model.FilterValue, Model.Index, Model.MatchesForItem]
      split_ifs <;> rfl
  · intro d m index t ds fv hrf hsd
    exact secondLine_Render d m index t ds fv hrf hsd

theorem c7_witness :
    NewDefaultDelegate.RenderFunc = none ∧
    (NewDefaultDelegate.Render { mApplied with matchesForItem := fun _ => [] }
        0 (Item.defaultItem ['a', 'b'] ['c'] [])).drop 1
      = (NewDefaultDelegate.Render mApplied 0
          (Item.defaultItem ['a', 'b'] ['c'] [])).drop 1 ∧
    (∃ st, (NewDefaultDelegate.Render mUnf 0
        (Item.defaultItem ['a', 'b'] ['c'] [])).drop 1
        = [RTxt.styled st (RTxt.raw (NewDefaultDelegate.fit mUnf ['c']))]) :=
  ⟨rfl,
   c7_desc_independent_of_matches.1 NewDefaultDelegate mApplied (fun _ => [])
     0 (Item.defaultItem ['a', 'b'] ['c'] []) rfl,
   c7_desc_independent_of_matches.2 NewDefaultDelegate mUnf 0
     ['a', 'b'] ['c'] [] rfl rfl⟩

end Bubbles
